import Mathlib

/-!
Verification of the data-shaping core of a dashboard component library:
the blob-reading helpers (read_csv_from_blob, list_blob_files), the
BlobData dataframe wrapper (fill_nan, filter_by_column, filter_out_data,
collect_unique_column_values, melt_dataframe, aggregate_dataframe) and
the data_source_badge UI helper.  Python/pandas behaviour is embedded
shallowly: dataframes are lists of rows of optional cells (a missing
cell models NaN), fallible operations return Except, and the network is
an explicit oracle so that side effects are visible in the result.
-/

deriving instance DecidableEq for Except

namespace StreamlitComponents

/-- A Python value handed to one of the library functions: text, an
integer, or the None object.  The argument-validation loops only
distinguish strings from non-strings. -/
inductive PyVal where
  | str (s : String)
  | int (n : Int)
  | noneV
deriving DecidableEq, Repr

/-- Python type name, as interpolated into TypeError messages. -/
def pyTypeName : PyVal → String
  | .str _ => "str"
  | .int _ => "int"
  | .noneV => "NoneType"

def PyVal.isStr : PyVal → Bool
  | .str _ => true
  | _ => false

def asStr : PyVal → String
  | .str s => s
  | _ => ""

/-- A scalar stored in a dataframe cell: pandas object values here are
either text or integers. -/
inductive Val where
  | int (n : Int)
  | str (s : String)
deriving DecidableEq, Repr

/-- A dataframe cell; none models a missing value (NaN). -/
abbrev Cell := Option Val

/-- The in-memory table behind BlobData: ordered column labels and rows
of cells, positionally aligned with the labels. -/
structure DataFrame where
  cols : List String
  rows : List (List Cell)
deriving DecidableEq, Repr

/-- Errors the embedded code can raise, mirroring the Python exceptions:
TypeError from argument validation, ValueError from column validation,
KeyError from pandas column lookup, IndexError from empty-list indexing,
a CSV parse failure, and errors surfaced by the storage provider. -/
inductive PyError where
  | typeError (msg : String)
  | valueError (msg : String)
  | keyError (col : String)
  | indexError
  | parseError
  | providerError (msg : String)
deriving DecidableEq, Repr

/-- The cell of one row under column label c (pandas positional lookup
through the label index); none when the label is absent. -/
def getCellRow (df : DataFrame) (r : List Cell) (c : String) : Cell :=
  match df.cols.indexOf? c with
  | some i => r.getD i none
  | none => none

/-- The column of cells under label c, one per row. -/
def colCells (df : DataFrame) (c : String) : List Cell :=
  df.rows.map (fun r => getCellRow df r c)

/-- The `locals()` loop at the top of the blob helpers: scan the named
arguments in order, failing on the first that is not a string. -/
def checkStrArgs : List (String × PyVal) → Option PyError
  | [] => none
  | (n, v) :: rest =>
    match v with
    | .str _ => checkStrArgs rest
    | _ => some (.typeError (n ++ (" must be a string, but got ") ++ pyTypeName v))

/-- pandas Series.unique, also reused for groupby keys: distinct
elements keeping the first occurrence of each. -/
def dedupFirst {α : Type} [DecidableEq α] : List α → List α
  | [] => []
  | x :: xs => x :: (dedupFirst xs).filter (fun y => y ≠ x)

/-- BlobData.collect_unique_column_values: ValueError when the column is
absent, else the column's distinct values in first-occurrence order. -/
def collect_unique_column_values (df : DataFrame) (column_name : String) :
    Except PyError (List Cell) :=
  if column_name ∈ df.cols then
    .ok (dedupFirst (colCells df column_name))
  else
    .error (.valueError (("Column: ") ++ column_name ++ (" is not present in dataframe")))

/-- Series.fillna on one column: every missing cell becomes the fill
value; other columns untouched. -/
def fillColumn (df : DataFrame) (c : String) (v : Val) : DataFrame :=
  match df.cols.indexOf? c with
  | some i =>
      { df with rows := df.rows.map (fun r => r.set i (some ((r.getD i none).getD v))) }
  | none => df

/-- BlobData.fill_nan: iterate over the listed columns, filling each one
that exists in place, and raise ValueError on the first absent one.  The
result is the dataframe state when the call returns or raises, paired
with the raised error if any: mutations made before the error persist,
exactly as the in-place Python loop leaves them. -/
def fill_nan (df : DataFrame) (columns : List String) (fill_value : Val) :
    DataFrame × Option PyError :=
  match columns with
  | [] => (df, none)
  | c :: rest =>
    if c ∈ df.cols then
      fill_nan (fillColumn df c fill_value) rest fill_value
    else
      (df, some (.valueError (("Column: ") ++ c ++ (" not present in dataframe"))))

/-- BlobData.filter_by_column: pandas column lookup raises KeyError on a
missing label; otherwise keep exactly the rows whose cell equals the
filter value (NaN compares unequal to every value). -/
def filter_by_column (df : DataFrame) (column : String) (filter_value : Val) :
    Except PyError DataFrame :=
  match df.cols.indexOf? column with
  | none => .error (.keyError column)
  | some i =>
      .ok { df with rows := df.rows.filter (fun r => r.getD i none == some filter_value) }

/-- BlobData.filter_out_data: keep the rows whose cell differs from the
filter value (a NaN cell differs from every value, so such rows are
kept); KeyError on a missing label. -/
def filter_out_data (df : DataFrame) (column : String) (filter_value : Val) :
    Except PyError DataFrame :=
  match df.cols.indexOf? column with
  | none => .error (.keyError column)
  | some i =>
      .ok { df with rows := df.rows.filter (fun r => !(r.getD i none == some filter_value)) }

/-- The tuple of cells a row holds under the given columns. -/
def tupleOf (df : DataFrame) (cs : List String) (r : List Cell) : List Cell :=
  cs.map (fun c => getCellRow df r c)

/-- BlobData.melt_dataframe (pandas melt): one output block per value
column, in value-column order; inside a block one row per input row, in
input order, carrying the id cells, the value-column name as the
variable cell, and that column's cell as the value cell.  KeyError when
a referenced column is absent. -/
def melt_dataframe (df : DataFrame) (id_vars value_vars : List String)
    (var_name value_name : String) : Except PyError DataFrame :=
  match (id_vars ++ value_vars).find? (fun c => !(df.cols.contains c)) with
  | some c => .error (.keyError c)
  | none =>
      .ok { cols := id_vars ++ [var_name, value_name],
            rows := value_vars.flatMap (fun v =>
              df.rows.map (fun r =>
                tupleOf df id_vars r ++ [some (.str v), getCellRow df r v])) }

/-- Ordering on scalar values, as pandas sorts homogeneous group keys:
integers numerically, strings lexicographically; across the two kinds an
arbitrary but fixed rank (only homogeneous columns are claimed). -/
def Val.lt : Val → Val → Bool
  | .int n, .int m => decide (n < m)
  | .str a, .str b => decide (a < b)
  | .int _, .str _ => true
  | .str _, .int _ => false

def Val.le (a b : Val) : Bool := Val.lt a b || a == b

/-- Ordering on cells; a missing cell sorts first (group keys that
survive the groupby dropna are never missing, so this case is inert). -/
def cellLe : Cell → Cell → Bool
  | none, _ => true
  | some _, none => false
  | some a, some b => Val.le a b

/-- Lexicographic ordering on group-key tuples. -/
def keyLe : List Cell → List Cell → Bool
  | [], _ => true
  | _ :: _, [] => false
  | a :: as, b :: bs => if a = b then keyLe as bs else cellLe a b

/-- keyLe as a decidable relation, for the sort. -/
def keyLeRel (a b : List Cell) : Prop := keyLe a b = true

instance : DecidableRel keyLeRel := fun a b => decEq (keyLe a b) true

/-- pandas sum of a column: missing values are skipped; only integer
cells contribute (claims restrict to numeric columns). -/
def cellSum : List Cell → Int
  | [] => 0
  | some (.int n) :: rest => n + cellSum rest
  | _ :: rest => cellSum rest

/-- A cell of a numeric column: missing or an integer. -/
def numCell : Cell → Bool
  | none => true
  | some (.int _) => true
  | some (.str _) => false

/-- A cell of a text column: missing or text (used to state that a
column is type-homogeneous so the group-key sort is well defined). -/
def strCell : Cell → Bool
  | none => true
  | some (.str _) => true
  | some (.int _) => false

/-- The rows groupby keeps: those whose key tuple has no missing cell
(groupby dropna drops the others). -/
def validRows (df : DataFrame) (gcols : List String) : List (List Cell) :=
  df.rows.filter (fun r => (tupleOf df gcols r).all (fun x => x.isSome))

/-- The distinct surviving key tuples, sorted ascending (groupby
sorts group keys by default). -/
def groupKeys (df : DataFrame) (gcols : List String) : List (List Cell) :=
  List.insertionSort keyLeRel (dedupFirst ((validRows df gcols).map (tupleOf df gcols)))

/-- The sum of aggregation column c over the rows of key k. -/
def groupSum (df : DataFrame) (gcols : List String) (k : List Cell) (c : String) : Int :=
  cellSum (((validRows df gcols).filter
    (fun r => tupleOf df gcols r = k)).map (fun r => getCellRow df r c))

/-- BlobData.aggregate_dataframe with the default agg_func of sum
(pandas groupby(gcols, as_index=False)[acols].agg, sum): rows whose key
tuple has a missing cell are dropped (groupby dropna); the distinct
surviving key tuples are sorted ascending (groupby sort); the output
has one row per key, the key cells followed by each aggregation
column's sum over the key's rows.  KeyError when a column is absent. -/
def aggregate_dataframe (df : DataFrame) (groupby_columns agg_columns : List String) :
    Except PyError DataFrame :=
  match (groupby_columns ++ agg_columns).find? (fun c => !(df.cols.contains c)) with
  | some c => .error (.keyError c)
  | none =>
      .ok { cols := groupby_columns ++ agg_columns,
            rows := (groupKeys df groupby_columns).map (fun k =>
              k ++ agg_columns.map (fun c =>
                some (.int (groupSum df groupby_columns k c)))) }

/-- The integer a cell contributes to a pandas sum: its value for an
integer cell, nothing for a missing cell (and text never reaches a sum
in the claims, which restrict to numeric columns). -/
def cellWeight : Cell → Int
  | some (.int n) => n
  | _ => 0

/-- Split a character list on a separator; n separators yield n+1
(possibly empty) chunks, so this agrees with Python text splitting. -/
def splitOnChar (sep : Char) : List Char → List (List Char)
  | [] => [[]]
  | c :: cs =>
      match splitOnChar sep cs with
      | [] => [[c]]
      | g :: gs => if c = sep then [] :: g :: gs else (c :: g) :: gs

/-- The lines of the fetched text. -/
def splitLines (s : String) : List String :=
  (splitOnChar ('\n') s.data).map String.mk

/-- The comma-separated fields of one line. -/
def splitFields (s : String) : List String :=
  (splitOnChar (',') s.data).map String.mk

/-- Decimal digits to a number; none on a non-digit. -/
def charsToNatAux : List Char → Nat → Option Nat
  | [], acc => some acc
  | c :: cs, acc =>
      if 48 ≤ c.toNat ∧ c.toNat ≤ 57 then charsToNatAux cs (acc * 10 + (c.toNat - 48))
      else none

/-- An optionally signed decimal integer; none when the text is not one. -/
def charsToInt? : List Char → Option Int
  | [] => none
  | c :: cs =>
      if c = ('-') then
        if cs = [] then none else (charsToNatAux cs 0).map (fun n => -(n : Int))
      else (charsToNatAux (c :: cs) 0).map (fun n => (n : Int))

/-- One CSV field as pandas types it: empty means missing (NaN), an
integer literal becomes an integer, anything else stays text. -/
def parseField (f : String) : Cell :=
  if f = ("") then none
  else
    match charsToInt? f.data with
    | some n => some (.int n)
    | none => some (.str f)

/-- pandas read_csv over the fetched text: split into lines, drop blank
lines (skip_blank_lines), first remaining line is the header (labels
split on commas, in line order), every further line one data row.  An
entirely empty payload is an EmptyDataError, modelled as a parse
failure. -/
def read_csv (content : String) : Except PyError DataFrame :=
  match (splitLines content).filter (fun l => l ≠ "") with
  | [] => .error .parseError
  | header :: dataLines =>
      .ok { cols := splitFields header,
            rows := dataLines.map (fun l => (splitFields l).map parseField) }

/-- One stored object as the listing reports it: its name and its
last-modified timestamp (kept opaque as text). -/
structure BlobDescriptor where
  name : String
  last_modified : String
deriving DecidableEq, Repr

/-- The storage provider as an oracle: fetching an object's text and
listing a container, each either succeeding or failing with a provider
error message. -/
structure BlobEnv where
  fetchContent : String → String → String → Except String String
  listBlobs : String → String → Except String (List BlobDescriptor)

/-- read_csv_from_blob: validate that every argument is a string (the
locals() loop, in parameter order), then fetch the blob's text and
parse it as CSV.  The first component records the storage access made:
none when validation failed before any network call, otherwise the
(container, blob) actually fetched. -/
def read_csv_from_blob (env : BlobEnv)
    (connection_string container_name blob_name : PyVal) :
    Option (String × String) × Except PyError DataFrame :=
  match checkStrArgs [(("connection_string"), connection_string),
                      (("container_name"), container_name),
                      (("blob_name"), blob_name)] with
  | some e => (none, .error e)
  | none =>
      match env.fetchContent (asStr connection_string) (asStr container_name) (asStr blob_name) with
      | .error m => (some (asStr container_name, asStr blob_name), .error (.providerError m))
      | .ok content => (some (asStr container_name, asStr blob_name), read_csv content)

/-- list_blob_files: validate both arguments are strings, then list the
container, returning the parallel name list and descriptor list.  The
first component records the container listed, none when validation
failed before any network call. -/
def list_blob_files (env : BlobEnv) (connection_string container_name : PyVal) :
    Option String × Except PyError (List String × List BlobDescriptor) :=
  match checkStrArgs [(("connection_string"), connection_string),
                      (("container_name"), container_name)] with
  | some e => (none, .error e)
  | none =>
      match env.listBlobs (asStr connection_string) (asStr container_name) with
      | .error m => (some (asStr container_name), .error (.providerError m))
      | .ok files => (some (asStr container_name), .ok (files.map (fun f => f.name), files))

/-- BlobData construction: the held dataframe is exactly the result of
read_csv_from_blob on the same arguments. -/
def BlobData.init (env : BlobEnv) (blob_connection_string container_name blob_name : PyVal) :
    Option (String × String) × Except PyError DataFrame :=
  read_csv_from_blob env blob_connection_string container_name blob_name

/-- data_source_badge: validate the three arguments are strings, then
list the blobs of the container named play-cricket (the container is a
literal in the source, independent of the arguments), pick the first
descriptor whose name equals file_name (IndexError when there is none)
and render the badge text from its last-modified stamp.  The first
component records the container listed, none when no listing
happened. -/
def data_source_badge (env : BlobEnv)
    (blob_connection_string file_name additional_comments : PyVal) :
    Option String × Except PyError String :=
  match checkStrArgs [(("blob_connection_string"), blob_connection_string),
                      (("file_name"), file_name),
                      (("additional_comments"), additional_comments)] with
  | some e => (none, .error e)
  | none =>
      match env.listBlobs (asStr blob_connection_string) ("play-cricket") with
      | .error m => (some ("play-cricket"), .error (.providerError m))
      | .ok blob_files =>
          match blob_files.filter (fun f => f.name = asStr file_name) with
          | [] => (some ("play-cricket"), .error .indexError)
          | f :: _ =>
              let note := if asStr additional_comments ≠ "" then
                  (" **| Note:** ") ++ asStr additional_comments else ("")
              (some ("play-cricket"), .ok ((("**Data Source:** ") ++ asStr file_name ++
                (" **| Data Updated:** ") ++ f.last_modified ++ (" ") ++ note)))

/-- Whether a result is a TypeError, the failure the argument-validation
loops raise. -/
def isTypeError {α : Type} : Except PyError α → Bool
  | .error (.typeError _) => true
  | _ => false

/-- A concrete storage oracle used to instantiate theorems about the
blob helpers: fetching always yields a small two-row CSV, listing always
yields one descriptor. -/
def constEnv : BlobEnv :=
  { fetchContent := fun _ _ _ => .ok (("team,score\nA,10\nB,20")),
    listBlobs := fun _ _ => .ok [⟨("data.csv"), ("2024-01-01 00:00:00")⟩] }

/-- The index of the first occurrence of an element in a list (the list
length when absent); used to state first-occurrence ordering. -/
def firstIdx {α : Type} [DecidableEq α] (l : List α) (a : α) : Nat :=
  l.findIdx (fun x => x = a)

/-- The id-tuple and variable cell an output row of melt carries: the
first len(id_vars) cells and the cell right after them. -/
def meltKey (nid : Nat) (orow : List Cell) : List Cell × Cell :=
  (orow.take nid, orow.getD nid none)

/-- A concrete dataset, the spec's worked example: columns team, score
with rows (A, 10), (B, 20), (A, 5). -/
def dfTeams : DataFrame :=
  { cols := [("team"), ("score")],
    rows := [[some (.str ("A")), some (.int 10)],
             [some (.str ("B")), some (.int 20)],
             [some (.str ("A")), some (.int 5)]] }

/-!  Theorems.  -/

theorem mem_dedupFirst {α : Type} [DecidableEq α] {l : List α} {x : α} :
    x ∈ dedupFirst l ↔ x ∈ l := by
  induction l with
  | nil => simp [dedupFirst]
  | cons y ys ih =>
      rw [dedupFirst]
      by_cases hxy : x = y
      · subst hxy
        simp
      · simp only [List.mem_cons, List.mem_filter, ih, decide_eq_true_eq]
        constructor
        · rintro (h | ⟨h, _⟩)
          · exact Or.inl h
          · exact Or.inr h
        · rintro (h | h)
          · exact Or.inl h
          · exact Or.inr ⟨h, hxy⟩

theorem nodup_dedupFirst {α : Type} [DecidableEq α] (l : List α) :
    (dedupFirst l).Nodup := by
  induction l with
  | nil => simp [dedupFirst]
  | cons y ys ih =>
      rw [dedupFirst]
      refine List.nodup_cons.mpr ⟨?_, ih.filter _⟩
      intro hmem
      have h := (List.mem_filter.mp hmem).2
      simp at h

theorem firstIdx_cons_self {α : Type} [DecidableEq α] (a : α) (l : List α) :
    firstIdx (a :: l) a = 0 := by
  simp [firstIdx, List.findIdx_cons]

theorem firstIdx_cons_ne {α : Type} [DecidableEq α] {y a : α} (l : List α) (h : y ≠ a) :
    firstIdx (y :: l) a = firstIdx l a + 1 := by
  simp [firstIdx, List.findIdx_cons, h]

theorem pairwise_firstIdx_dedupFirst {α : Type} [DecidableEq α] (l : List α) :
    (dedupFirst l).Pairwise (fun a b => firstIdx l a < firstIdx l b) := by
  induction l with
  | nil => simp [dedupFirst]
  | cons y ys ih =>
      rw [dedupFirst]
      refine List.pairwise_cons.mpr ⟨?_, ?_⟩
      · intro b hb
        have hbne : b ≠ y := by
          have h := (List.mem_filter.mp hb).2
          simpa using h
        rw [firstIdx_cons_self, firstIdx_cons_ne ys (Ne.symm hbne)]
        exact Nat.succ_pos _
      · have hsub : ((dedupFirst ys).filter (fun z => z ≠ y)).Pairwise
            (fun a b => firstIdx ys a < firstIdx ys b) :=
          List.Pairwise.sublist (List.filter_sublist _) ih
        refine List.Pairwise.imp_of_mem ?_ hsub
        intro a b ha hb hab
        have hane : a ≠ y := by
          have h := (List.mem_filter.mp ha).2
          simpa using h
        have hbne : b ≠ y := by
          have h := (List.mem_filter.mp hb).2
          simpa using h
        rw [firstIdx_cons_ne ys (Ne.symm hane), firstIdx_cons_ne ys (Ne.symm hbne),
          Nat.add_lt_add_iff_right]
        exact hab

theorem read_csv_not_typeError (content : String) :
    isTypeError (read_csv content) = false := by
  unfold read_csv
  split <;> rfl

/-- C1: the specification demands that fill_nan validate every listed
column before mutating any, so that a failing call leaves the dataset in
its pre-call state.  The code instead fills columns as it scans the
list: on the dataset with the single column a holding one missing cell,
fill_nan on the list a, b raises the ValueError for b only after column
a has already been filled with 0, so the dataset at the time of the
failure differs from its pre-call state. -/
theorem fill_nan_mutates_before_validation :
    fill_nan (DataFrame.mk (["a"]) ([[none]])) ([("a"), ("b")]) (Val.int 0) =
      (DataFrame.mk (["a"]) ([[some (Val.int 0)]]),
       some (PyError.valueError ("Column: b not present in dataframe"))) ∧
    DataFrame.mk (["a"]) ([[some (Val.int 0)]]) ≠ DataFrame.mk (["a"]) ([[none]]) := by
  decide

/-- C2 counterexample: on the dataset with single column a, filtering on
the absent column b raises KeyError from the pandas column lookup — it
does not return an empty dataset. -/
theorem filter_unknown_column_not_empty :
    filter_by_column (DataFrame.mk (["a"]) ([[some (Val.int 1)]])) ("b") (Val.int 0) =
      .error (.keyError ("b")) ∧
    filter_out_data (DataFrame.mk (["a"]) ([[some (Val.int 1)]])) ("b") (Val.int 0) =
      .error (.keyError ("b")) := by
  decide

/-- C2 amended: filter_by_column and filter_out_data on a column label
absent from the dataset fail with KeyError naming that label (the
underlying indexing raised, so the held dataset is untouched); they do
not yield an empty dataset. -/
theorem filter_unknown_column_keyError (df : DataFrame) (c : String) (v : Val)
    (h : c ∉ df.cols) :
    filter_by_column df c v = .error (.keyError c) ∧
    filter_out_data df c v = .error (.keyError c) := by
  have hidx : df.cols.indexOf? c = none := by
    rw [List.indexOf?_eq_none_iff]
    intro x hx
    simp only [beq_iff_eq]
    exact fun e => h (e ▸ hx)
  exact ⟨by unfold filter_by_column; rw [hidx], by unfold filter_out_data; rw [hidx]⟩

theorem filter_unknown_column_keyError_witness :
    (("b") ∉ (DataFrame.mk (["a"]) ([[some (Val.int 1)]])).cols) ∧
    (filter_by_column (DataFrame.mk (["a"]) ([[some (Val.int 1)]])) ("b") (Val.int 2) =
      .error (.keyError ("b")) ∧
     filter_out_data (DataFrame.mk (["a"]) ([[some (Val.int 1)]])) ("b") (Val.int 2) =
      .error (.keyError ("b"))) :=
  ⟨by decide, filter_unknown_column_keyError _ _ _ (by decide)⟩

/-- C3: read_csv_from_blob and list_blob_files validate that every
argument is a string before touching storage: with any non-string
argument they fail with TypeError and the access trace is empty (no
network call was made); with all-string arguments no TypeError ever
arises, whatever the provider returns. -/
theorem blob_helpers_validate_before_access (env : BlobEnv) (a b c : PyVal) :
    ((a.isStr && b.isStr && c.isStr) = false →
      (read_csv_from_blob env a b c).1 = none ∧
      isTypeError (read_csv_from_blob env a b c).2 = true) ∧
    ((a.isStr && b.isStr && c.isStr) = true →
      isTypeError (read_csv_from_blob env a b c).2 = false) ∧
    ((a.isStr && b.isStr) = false →
      (list_blob_files env a b).1 = none ∧
      isTypeError (list_blob_files env a b).2 = true) ∧
    ((a.isStr && b.isStr) = true →
      isTypeError (list_blob_files env a b).2 = false) := by
  refine ⟨?_, ?_, ?_, ?_⟩
  · intro h
    cases a <;> cases b <;> cases c <;>
      simp_all [read_csv_from_blob, checkStrArgs, PyVal.isStr, isTypeError]
  · intro h
    cases a <;> cases b <;> cases c <;> simp_all [PyVal.isStr]
    unfold read_csv_from_blob checkStrArgs
    split
    · rename_i heq
      cases heq
    · split
      · rfl
      · exact read_csv_not_typeError _
  · intro h
    cases a <;> cases b <;>
      simp_all [list_blob_files, checkStrArgs, PyVal.isStr, isTypeError]
  · intro h
    cases a <;> cases b <;> simp_all [PyVal.isStr]
    unfold list_blob_files checkStrArgs
    split
    · rename_i heq
      cases heq
    · split <;> rfl

theorem blob_helpers_validate_before_access_witness :
    (((PyVal.int 3).isStr && (PyVal.str ("c")).isStr && (PyVal.str ("b")).isStr) = false →
      (read_csv_from_blob constEnv (.int 3) (.str ("c")) (.str ("b"))).1 = none ∧
      isTypeError (read_csv_from_blob constEnv (.int 3) (.str ("c")) (.str ("b"))).2 = true) ∧
    (((PyVal.str ("a")).isStr && (PyVal.str ("c")).isStr && (PyVal.str ("b")).isStr) = true →
      isTypeError (read_csv_from_blob constEnv (.str ("a")) (.str ("c")) (.str ("b"))).2 = false) ∧
    (((PyVal.int 3).isStr && (PyVal.str ("c")).isStr) = false →
      (list_blob_files constEnv (.int 3) (.str ("c"))).1 = none ∧
      isTypeError (list_blob_files constEnv (.int 3) (.str ("c"))).2 = true) ∧
    (((PyVal.str ("a")).isStr && (PyVal.str ("c")).isStr) = true →
      isTypeError (list_blob_files constEnv (.str ("a")) (.str ("c"))).2 = false) :=
  blob_helpers_validate_before_access constEnv (.int 3) (.str ("c")) (.str ("b"))
    |>.1 (by decide)
    |> fun h1 =>
      ⟨fun _ => h1,
       (blob_helpers_validate_before_access constEnv (.str ("a")) (.str ("c")) (.str ("b"))).2.1,
       fun _ => (blob_helpers_validate_before_access constEnv (.int 3) (.str ("c")) (.str ("b"))).2.2.1 (by decide),
       (blob_helpers_validate_before_access constEnv (.str ("a")) (.str ("c")) (.str ("b"))).2.2.2⟩

/-- C4: when the fetch of a valid (connection, container, object) triple
returns well-formed CSV text whose non-blank lines are a header line
followed by R data lines, the dataframe BlobData holds after
construction has exactly R rows and its column labels are the fields of
the header line, in the header's order. -/
theorem blobdata_init_shape (env : BlobEnv) (conn cont blob : String)
    (content headerLine : String) (dataLines : List String)
    (hfetch : env.fetchContent conn cont blob = .ok content)
    (hlines : (splitLines content).filter (fun l => l ≠ "") = headerLine :: dataLines) :
    ∃ df, (BlobData.init env (.str conn) (.str cont) (.str blob)).2 = .ok df ∧
      df.cols = splitFields headerLine ∧ df.rows.length = dataLines.length := by
  have hred : (BlobData.init env (.str conn) (.str cont) (.str blob)).2 = read_csv content := by
    unfold BlobData.init read_csv_from_blob
    simp only [checkStrArgs, asStr]
    rw [hfetch]
  rw [hred]
  unfold read_csv
  rw [hlines]
  exact ⟨_, rfl, rfl, by simp⟩

theorem blobdata_init_shape_witness :
    constEnv.fetchContent ("cs") ("cont") ("blob") = .ok (("team,score\nA,10\nB,20")) ∧
    (splitLines (("team,score\nA,10\nB,20"))).filter (fun l => l ≠ "") =
      ("team,score") :: [("A,10"), ("B,20")] ∧
    (∃ df, (BlobData.init constEnv (.str ("cs")) (.str ("cont")) (.str ("blob"))).2 = .ok df ∧
      df.cols = splitFields ("team,score") ∧ df.rows.length = 2) :=
  ⟨rfl, by decide,
   blobdata_init_shape constEnv ("cs") ("cont") ("blob") _ ("team,score")
     [("A,10"), ("B,20")] rfl (by decide)⟩

/-- C10: data_source_badge only ever lists the container named
play-cricket — whatever its arguments, the container it touches is
either none (validation failed before any listing) or play-cricket —
and when the listing of that container holds no blob named file_name
the call fails with IndexError from indexing the empty filtered list,
not with an error from the specification's taxonomy. -/
theorem data_source_badge_fixed_container (env : BlobEnv) (a b c : PyVal)
    (conn fn ac : String) (files : List BlobDescriptor)
    (hlist : env.listBlobs conn ("play-cricket") = .ok files)
    (hnone : ∀ f ∈ files, f.name ≠ fn) :
    ((data_source_badge env a b c).1 = none ∨
     (data_source_badge env a b c).1 = some ("play-cricket")) ∧
    (data_source_badge env (.str conn) (.str fn) (.str ac)).1 = some ("play-cricket") ∧
    (data_source_badge env (.str conn) (.str fn) (.str ac)).2 = .error .indexError := by
  have hfilter : ∀ g : BlobDescriptor → Bool, ∀ fs : List BlobDescriptor,
      (∀ f ∈ fs, g f = false) → fs.filter g = [] := by
    intro g fs h
    rw [List.filter_eq_nil_iff]
    intro x hx
    simp [h x hx]
  have hflt : files.filter (fun f => f.name = fn) = [] := by
    apply hfilter
    intro f hf
    simp [hnone f hf]
  refine ⟨?_, ?_⟩
  · cases a <;> cases b <;> cases c <;>
      simp_all [data_source_badge, checkStrArgs, asStr] <;>
      rcases henv : env.listBlobs _ ("play-cricket") with m | fs <;>
        simp [henv] <;>
        rcases hf : fs.filter _ with _ | ⟨f, fs2⟩ <;> simp [hf]
  · simp [data_source_badge, checkStrArgs, asStr, hlist, hflt]

theorem data_source_badge_fixed_container_witness :
    constEnv.listBlobs ("cs") ("play-cricket") = .ok [⟨("data.csv"), ("2024-01-01 00:00:00")⟩] ∧
    (∀ f ∈ [(⟨("data.csv"), ("2024-01-01 00:00:00")⟩ : BlobDescriptor)], f.name ≠ ("other.csv")) ∧
    (((data_source_badge constEnv (.int 7) (.str ("other.csv")) (.str (""))).1 = none ∨
      (data_source_badge constEnv (.int 7) (.str ("other.csv")) (.str (""))).1 = some ("play-cricket")) ∧
     (data_source_badge constEnv (.str ("cs")) (.str ("other.csv")) (.str (""))).1 = some ("play-cricket") ∧
     (data_source_badge constEnv (.str ("cs")) (.str ("other.csv")) (.str (""))).2 = .error .indexError) :=
  ⟨rfl, by decide,
   data_source_badge_fixed_container constEnv (.int 7) (.str ("other.csv")) (.str (""))
     ("cs") ("other.csv") ("") _ rfl (by decide)⟩

/-- C5: collect_unique_column_values on an existing column returns the
column's distinct values — no duplicates, exactly the values occurring
in the column, listed in order of first occurrence (their first-occurrence
indexes in the column are strictly increasing along the result); on an
absent column label it fails with the ValueError whose message names
that label. -/
theorem collect_unique_spec (df : DataFrame) (c : String) :
    (c ∈ df.cols →
      ∃ res, collect_unique_column_values df c = .ok res ∧
        res.Nodup ∧ (∀ x, x ∈ res ↔ x ∈ colCells df c) ∧
        res.Pairwise (fun a b => firstIdx (colCells df c) a < firstIdx (colCells df c) b)) ∧
    (c ∉ df.cols →
      collect_unique_column_values df c =
        .error (.valueError (("Column: ") ++ c ++ (" is not present in dataframe")))) := by
  constructor
  · intro h
    refine ⟨_, ?_, nodup_dedupFirst _, fun x => mem_dedupFirst, pairwise_firstIdx_dedupFirst _⟩
    simp [collect_unique_column_values, h]
  · intro h
    simp [collect_unique_column_values, h]

theorem collect_unique_spec_witness :
    (∃ res, collect_unique_column_values dfTeams ("team") = .ok res ∧
      res.Nodup ∧ (∀ x, x ∈ res ↔ x ∈ colCells dfTeams ("team")) ∧
      res.Pairwise (fun a b =>
        firstIdx (colCells dfTeams ("team")) a < firstIdx (colCells dfTeams ("team")) b)) ∧
    collect_unique_column_values dfTeams ("missing_col") =
      .error (.valueError (("Column: ") ++ ("missing_col") ++ (" is not present in dataframe"))) :=
  ⟨(collect_unique_spec dfTeams ("team")).1 (by decide),
   (collect_unique_spec dfTeams ("missing_col")).2 (by decide)⟩

theorem dedupFirst_const {α : Type} [DecidableEq α] (a : α) :
    ∀ l : List α, (∀ x ∈ l, x = a) → dedupFirst l = if l = [] then [] else [a]
  | [], _ => by simp [dedupFirst]
  | x :: xs, h => by
      rw [dedupFirst]
      have hx : x = a := h x (List.mem_cons_self x xs)
      subst hx
      rw [dedupFirst_const x xs (fun y hy => h y (List.mem_cons_of_mem x hy))]
      by_cases hxs : xs = [] <;> simp [hxs]

theorem getCellRow_of_index (df : DataFrame) (r : List Cell) (c : String) (i : Nat)
    (hi : df.cols.indexOf? c = some i) : getCellRow df r c = r.getD i none := by
  simp [getCellRow, hi]

/-- C7: with an existing column c, filtering by value v and then taking
the column's unique values gives exactly [v] when some input row holds v
in c, and the empty list otherwise; and filtering a second time by the
same column and value returns the dataset unchanged (idempotence). -/
theorem filter_then_unique (df : DataFrame) (c : String) (v : Val) (h : c ∈ df.cols) :
    ∃ df2, filter_by_column df c v = .ok df2 ∧
      filter_by_column df2 c v = .ok df2 ∧
      ((some v ∈ colCells df c) → collect_unique_column_values df2 c = .ok [some v]) ∧
      ((some v ∉ colCells df c) → collect_unique_column_values df2 c = .ok []) := by
  obtain ⟨i, hi⟩ : ∃ i, df.cols.indexOf? c = some i := by
    cases hidx : df.cols.indexOf? c with
    | some i => exact ⟨i, rfl⟩
    | none =>
        rw [List.indexOf?_eq_none_iff] at hidx
        have := hidx c h
        simp at this
  refine ⟨DataFrame.mk df.cols (df.rows.filter (fun r => r.getD i none == some v)),
    ?_, ?_, ?_, ?_⟩
  · simp [filter_by_column, hi]
  · simp [filter_by_column, hi]
  · intro hmem
    have hc2 : c ∈ (DataFrame.mk df.cols
        (df.rows.filter (fun r => r.getD i none == some v))).cols := h
    have hcol : colCells (DataFrame.mk df.cols
        (df.rows.filter (fun r => r.getD i none == some v))) c =
        (df.rows.filter (fun r => r.getD i none == some v)).map (fun r => r.getD i none) := by
      simp only [colCells]
      refine List.map_congr_left ?_
      intro r _
      exact getCellRow_of_index _ r c i hi
    have hall : ∀ x ∈ (df.rows.filter (fun r => r.getD i none == some v)).map
        (fun r => r.getD i none), x = some v := by
      intro x hx
      obtain ⟨r, hr, rfl⟩ := List.mem_map.mp hx
      have := (List.mem_filter.mp hr).2
      simpa using this
    obtain ⟨r, hr, hrv⟩ := List.mem_map.mp hmem
    have hrv2 : r.getD i none = some v := by
      rw [← getCellRow_of_index df r c i hi]
      exact hrv
    have hne : (df.rows.filter (fun r => r.getD i none == some v)).map
        (fun r => r.getD i none) ≠ [] := by
      have hrf : r ∈ df.rows.filter (fun r => r.getD i none == some v) := by
        rw [List.mem_filter]
        exact ⟨hr, by simpa using hrv2⟩
      intro hnil
      rw [List.map_eq_nil_iff] at hnil
      rw [hnil] at hrf
      simp at hrf
    simp only [collect_unique_column_values, if_pos hc2, hcol]
    rw [dedupFirst_const (some v) _ hall]
    simp only [if_neg hne]
  · intro hmem
    have hc2 : c ∈ (DataFrame.mk df.cols
        (df.rows.filter (fun r => r.getD i none == some v))).cols := h
    have hnil : df.rows.filter (fun r => r.getD i none == some v) = [] := by
      rw [List.filter_eq_nil_iff]
      intro r hr hrv
      apply hmem
      rw [beq_iff_eq] at hrv
      refine List.mem_map.mpr ⟨r, hr, ?_⟩
      rw [getCellRow_of_index df r c i hi]
      exact hrv
    have hcol2 : colCells (DataFrame.mk df.cols
        (df.rows.filter (fun r => r.getD i none == some v))) c = [] := by
      unfold colCells
      rw [show (DataFrame.mk df.cols (df.rows.filter (fun r => r.getD i none == some v))).rows
          = df.rows.filter (fun r => r.getD i none == some v) from rfl, hnil]
      rfl
    simp only [collect_unique_column_values, if_pos hc2, hcol2]
    rfl

theorem filter_then_unique_witness :
    (("team") ∈ dfTeams.cols) ∧
    (∃ df2, filter_by_column dfTeams ("team") (.str ("A")) = .ok df2 ∧
      filter_by_column df2 ("team") (.str ("A")) = .ok df2 ∧
      ((some (.str ("A")) ∈ colCells dfTeams ("team")) →
        collect_unique_column_values df2 ("team") = .ok [some (.str ("A"))]) ∧
      ((some (.str ("A")) ∉ colCells dfTeams ("team")) →
        collect_unique_column_values df2 ("team") = .ok [])) :=
  ⟨by decide, filter_then_unique dfTeams ("team") (.str ("A")) (by decide)⟩

theorem length_flatMap_const {α β : Type} (l : List α) (g : α → List β) (n : Nat)
    (h : ∀ a ∈ l, (g a).length = n) : (l.flatMap g).length = l.length * n := by
  induction l with
  | nil => simp
  | cons x xs ih =>
      rw [List.flatMap_cons, List.length_append, h x (List.mem_cons_self x xs),
        ih (fun a ha => h a (List.mem_cons_of_mem x ha)), List.length_cons,
        Nat.succ_mul, Nat.add_comm]

theorem tupleOf_length (df : DataFrame) (cs : List String) (r : List Cell) :
    (tupleOf df cs r).length = cs.length := by
  simp [tupleOf]

theorem meltKey_append (df : DataFrame) (id_vars : List String) (r : List Cell) (v : String)
    (x : Cell) :
    meltKey id_vars.length (tupleOf df id_vars r ++ [some (.str v), x]) =
      (tupleOf df id_vars r, some (.str v)) := by
  unfold meltKey
  have hlen : (tupleOf df id_vars r).length = id_vars.length := tupleOf_length df id_vars r
  have h1 : (tupleOf df id_vars r ++ [some (.str v), x]).take id_vars.length =
      tupleOf df id_vars r := List.take_left' hlen
  have h2 : (tupleOf df id_vars r ++ [some (.str v), x]).getD id_vars.length none =
      some (.str v) := by
    rw [List.getD_eq_getElem?_getD, List.getElem?_append_right (le_of_eq hlen), hlen]
    simp
  rw [h1, h2]

/-- C8: when the id columns and value columns all exist, melt_dataframe
yields a dataset with input-rows times len(value_vars) rows; every
output row is the id-tuple of some source row followed by one (variable
name, value) cell pair for some value column, and every such combination
occurs; and when the value-column list has no duplicates and the input
id-tuples are pairwise distinct, the (id-tuple, variable) pairs carried
by the output rows are pairwise distinct. -/
theorem melt_shape (df : DataFrame) (id_vars value_vars : List String)
    (var_name value_name : String)
    (hid : ∀ c ∈ id_vars, c ∈ df.cols) (hval : ∀ c ∈ value_vars, c ∈ df.cols) :
    ∃ out, melt_dataframe df id_vars value_vars var_name value_name = .ok out ∧
      out.cols = id_vars ++ [var_name, value_name] ∧
      out.rows.length = df.rows.length * value_vars.length ∧
      (∀ orow ∈ out.rows, ∃ r ∈ df.rows, ∃ v ∈ value_vars,
        orow = tupleOf df id_vars r ++ [some (.str v), getCellRow df r v]) ∧
      (∀ r ∈ df.rows, ∀ v ∈ value_vars,
        tupleOf df id_vars r ++ [some (.str v), getCellRow df r v] ∈ out.rows) ∧
      (value_vars.Nodup → (df.rows.map (tupleOf df id_vars)).Nodup →
        (out.rows.map (meltKey id_vars.length)).Nodup) := by
  have hfind : (id_vars ++ value_vars).find? (fun c => !(df.cols.contains c)) = none := by
    rw [List.find?_eq_none]
    intro c hc
    rcases List.mem_append.mp hc with h | h
    · simp [hid c h]
    · simp [hval c h]
  refine ⟨DataFrame.mk (id_vars ++ [var_name, value_name])
      (value_vars.flatMap (fun v => df.rows.map (fun r =>
        tupleOf df id_vars r ++ [some (.str v), getCellRow df r v]))),
    ?_, rfl, ?_, ?_, ?_, ?_⟩
  · unfold melt_dataframe
    rw [hfind]
  · show (value_vars.flatMap (fun v => df.rows.map (fun r =>
        tupleOf df id_vars r ++ [some (.str v), getCellRow df r v]))).length = _
    rw [length_flatMap_const value_vars _ df.rows.length (fun v _ => by simp), Nat.mul_comm]
  · intro orow ho
    obtain ⟨v, hv, hmm⟩ := List.mem_flatMap.mp ho
    obtain ⟨r, hr, rfl⟩ := List.mem_map.mp hmm
    exact ⟨r, hr, v, hv, rfl⟩
  · intro r hr v hv
    exact List.mem_flatMap.mpr ⟨v, hv, List.mem_map.mpr ⟨r, hr, rfl⟩⟩
  · intro hvnd hidnd
    have hmap : (value_vars.flatMap (fun v => df.rows.map (fun r =>
          tupleOf df id_vars r ++ [some (.str v), getCellRow df r v]))).map
            (meltKey id_vars.length)
        = value_vars.flatMap (fun v => df.rows.map (fun r =>
            (tupleOf df id_vars r, (some (.str v) : Cell)))) := by
      rw [List.map_flatMap]
      exact congrArg (List.flatMap value_vars) (funext fun v => by
        rw [List.map_map]
        exact List.map_congr_left (fun r _ => meltKey_append df id_vars r v _))
    show ((value_vars.flatMap (fun v => df.rows.map (fun r =>
        tupleOf df id_vars r ++ [some (.str v), getCellRow df r v]))).map
          (meltKey id_vars.length)).Nodup
    rw [hmap, List.nodup_flatMap]
    constructor
    · intro v _
      have hmm : df.rows.map (fun r => (tupleOf df id_vars r, (some (.str v) : Cell)))
          = (df.rows.map (tupleOf df id_vars)).map (fun t => (t, (some (.str v) : Cell))) := by
        rw [List.map_map]
        rfl
      rw [hmm]
      exact hidnd.map (fun a b h => congrArg Prod.fst h)
    · refine hvnd.imp ?_
      intro v1 v2 hne x hx1 hx2
      obtain ⟨r1, _, rfl⟩ := List.mem_map.mp hx1
      obtain ⟨r2, _, h2⟩ := List.mem_map.mp hx2
      have : (Val.str v2) = (Val.str v1) := by
        have := congrArg Prod.snd h2
        simpa using this
      exact hne (by injection this with h; exact h.symm)

theorem melt_shape_witness :
    (∀ c ∈ [("team")], c ∈ dfTeams.cols) ∧ (∀ c ∈ [("score")], c ∈ dfTeams.cols) ∧
    (∃ out, melt_dataframe dfTeams [("team")] [("score")] ("k") ("v")= .ok out ∧
      out.cols = [("team")] ++ [("k"), ("v")] ∧
      out.rows.length = dfTeams.rows.length * ([("score")] : List String).length ∧
      (∀ orow ∈ out.rows, ∃ r ∈ dfTeams.rows, ∃ w ∈ [("score")],
        orow = tupleOf dfTeams [("team")] r ++ [some (.str w), getCellRow dfTeams r w]) ∧
      (∀ r ∈ dfTeams.rows, ∀ w ∈ [("score")],
        tupleOf dfTeams [("team")] r ++ [some (.str w), getCellRow dfTeams r w] ∈ out.rows) ∧
      (([("score")] : List String).Nodup →
        (dfTeams.rows.map (tupleOf dfTeams [("team")])).Nodup →
        (out.rows.map (meltKey ([("team")] : List String).length)).Nodup)) :=
  ⟨by decide, by decide,
   melt_shape dfTeams [("team")] [("score")] ("k") ("v") (by decide) (by decide)⟩

theorem Val.le_total2 (a b : Val) : Val.le a b = true ∨ Val.le b a = true := by
  rcases a with n | s <;> rcases b with m | t <;> simp [Val.le, Val.lt]
  · omega
  · rcases lt_trichotomy s.data t.data with h | h | h
    · exact Or.inl (Or.inl h)
    · exact Or.inl (Or.inr (String.ext h))
    · exact Or.inr (Or.inl h)

theorem Val.le_trans2 (a b c : Val) (h1 : Val.le a b = true) (h2 : Val.le b c = true) :
    Val.le a c = true := by
  rcases a with n | s <;> rcases b with m | t <;> rcases c with k | u <;>
    simp [Val.le, Val.lt] at h1 h2 ⊢ <;> try omega
  rcases h1 with h1 | h1
  · rcases h2 with h2 | h2
    · exact Or.inl (lt_trans h1 h2)
    · rw [h2] at h1
      exact Or.inl h1
  · rw [h1]
    exact h2

theorem Val.le_antisymm2 (a b : Val) (h1 : Val.le a b = true) (h2 : Val.le b a = true) :
    a = b := by
  rcases a with n | s <;> rcases b with m | t <;> simp [Val.le, Val.lt] at h1 h2 ⊢ <;> try omega
  rcases h1 with h1 | h1
  · rcases h2 with h2 | h2
    · exact absurd (lt_trans h1 h2) (lt_irrefl s.data)
    · exact h2.symm
  · exact h1

theorem cellLe_total (a b : Cell) : cellLe a b = true ∨ cellLe b a = true := by
  rcases a with _ | x <;> rcases b with _ | y <;> simp [cellLe]
  exact Val.le_total2 x y

theorem cellLe_trans (a b c : Cell) (h1 : cellLe a b = true) (h2 : cellLe b c = true) :
    cellLe a c = true := by
  rcases a with _ | x <;> rcases b with _ | y <;> rcases c with _ | z <;>
    simp [cellLe] at h1 h2 ⊢
  exact Val.le_trans2 x y z h1 h2

theorem cellLe_antisymm (a b : Cell) (h1 : cellLe a b = true) (h2 : cellLe b a = true) :
    a = b := by
  rcases a with _ | x <;> rcases b with _ | y <;> simp [cellLe] at h1 h2 ⊢
  exact Val.le_antisymm2 x y h1 h2

theorem keyLe_total : ∀ (k1 k2 : List Cell), keyLe k1 k2 = true ∨ keyLe k2 k1 = true
  | [], _ => Or.inl rfl
  | _ :: _, [] => Or.inr rfl
  | a :: as, b :: bs => by
      by_cases hab : a = b
      · subst hab
        simp only [keyLe, if_pos rfl]
        exact keyLe_total as bs
      · simp only [keyLe, if_neg hab, if_neg (Ne.symm hab)]
        exact cellLe_total a b

theorem keyLe_trans : ∀ (k1 k2 k3 : List Cell),
    keyLe k1 k2 = true → keyLe k2 k3 = true → keyLe k1 k3 = true
  | [], _, _, _, _ => rfl
  | _ :: _, [], _, h1, _ => by cases h1
  | _ :: _, _ :: _, [], _, h2 => by cases h2
  | a :: as, b :: bs, c :: cs, h1, h2 => by
      by_cases hab : a = b
      · subst hab
        by_cases hbc : a = c
        · subst hbc
          simp only [keyLe, if_pos rfl] at h1 h2 ⊢
          exact keyLe_trans as bs cs h1 h2
        · simp only [keyLe, if_pos rfl, if_neg hbc] at h1 h2 ⊢
          exact h2
      · by_cases hbc : b = c
        · subst hbc
          simp only [keyLe, if_neg hab] at h1 ⊢
          exact h1
        · simp only [keyLe, if_neg hab, if_neg hbc] at h1 h2
          have hac : a ≠ c := by
            intro he
            subst he
            exact hab (cellLe_antisymm a b h1 h2)
          simp only [keyLe, if_neg hac]
          exact cellLe_trans a b c h1 h2

theorem cellSum_eq_sum_weights : ∀ l : List Cell, cellSum l = (l.map cellWeight).sum
  | [] => rfl
  | x :: rest => by
      rcases x with _ | v
      · simp [cellSum, cellWeight, cellSum_eq_sum_weights rest]
      · rcases v with n | s <;> simp [cellSum, cellWeight, cellSum_eq_sum_weights rest]

theorem cellSum_map_some_int {β : Type} (f : β → Int) :
    ∀ l : List β, cellSum (l.map (fun k => some (.int (f k)))) = (l.map f).sum
  | [] => rfl
  | x :: xs => by simp [cellSum, cellSum_map_some_int f xs]

theorem sum_map_filter_split {α : Type} (p : α → Bool) (f : α → Int) :
    ∀ l : List α,
      ((l.filter p).map f).sum + ((l.filter (fun x => !(p x))).map f).sum = (l.map f).sum
  | [] => rfl
  | x :: xs => by
      have ih := sum_map_filter_split p f xs
      by_cases hp : p x = true
      · rw [List.filter_cons_of_pos hp, List.filter_cons_of_neg (by simp [hp])]
        simp only [List.map_cons, List.sum_cons]
        omega
      · rw [List.filter_cons_of_neg hp, List.filter_cons_of_pos (by simpa using hp)]
        simp only [List.map_cons, List.sum_cons]
        omega

theorem sum_fibers {α β : Type} [DecidableEq β] (f : α → Int) (key : α → β) :
    ∀ (K : List β) (l : List α), K.Nodup → (∀ x ∈ l, key x ∈ K) →
      (K.map (fun k => ((l.filter (fun x => key x = k)).map f).sum)).sum = (l.map f).sum
  | [], l, _, hcov => by
      cases l with
      | nil => rfl
      | cons x xs => exact absurd (hcov x (List.mem_cons_self x xs)) (List.not_mem_nil _)
  | k :: K2, l, hnd, hcov => by
      have hknot := (List.nodup_cons.mp hnd).1
      have hnd2 := (List.nodup_cons.mp hnd).2
      have hcov2 : ∀ x ∈ l.filter (fun x => !(decide (key x = k))), key x ∈ K2 := by
        intro x hx
        have hxl := (List.mem_filter.mp hx).1
        have hxk : ¬ key x = k := by
          have h := (List.mem_filter.mp hx).2
          simpa using h
        rcases List.mem_cons.mp (hcov x hxl) with h | h
        · exact absurd h hxk
        · exact h
      have htail : ∀ k2 ∈ K2,
          ((l.filter (fun x => key x = k2)).map f).sum
            = (((l.filter (fun x => !(decide (key x = k)))).filter
                (fun x => key x = k2)).map f).sum := by
        intro k2 hk2
        have hk2ne : k2 ≠ k := by
          intro he
          subst he
          exact hknot hk2
        rw [List.filter_filter]
        have hfe : List.filter (fun a => decide (key a = k2) && !(decide (key a = k))) l
            = List.filter (fun x => decide (key x = k2)) l := by
          refine List.filter_congr ?_
          intro x _
          by_cases hxk : key x = k2
          · simp [hxk, hk2ne]
          · simp [hxk]
        rw [hfe]
      simp only [List.map_cons, List.sum_cons]
      rw [List.map_congr_left htail,
        sum_fibers f key K2 (l.filter (fun x => !(decide (key x = k)))) hnd2 hcov2]
      exact sum_map_filter_split (fun x => decide (key x = k)) f l

theorem groupKeys_length (df : DataFrame) (gcols : List String) :
    ∀ k ∈ groupKeys df gcols, k.length = gcols.length := by
  intro k hk
  unfold groupKeys at hk
  rw [List.mem_insertionSort, mem_dedupFirst] at hk
  obtain ⟨r, _, rfl⟩ := List.mem_map.mp hk
  exact tupleOf_length df gcols r

theorem groupKeys_nodup (df : DataFrame) (gcols : List String) :
    (groupKeys df gcols).Nodup := by
  unfold groupKeys
  exact (List.perm_insertionSort keyLeRel _).nodup_iff.mpr (nodup_dedupFirst _)

theorem groupKeys_mem (df : DataFrame) (gcols : List String) (r : List Cell)
    (hr : r ∈ validRows df gcols) : tupleOf df gcols r ∈ groupKeys df gcols := by
  unfold groupKeys
  rw [List.mem_insertionSort, mem_dedupFirst]
  exact List.mem_map.mpr ⟨r, hr, rfl⟩

theorem getD_append_of_length {l l2 : List Cell} {x : Cell} {n : Nat} (h : l.length = n) :
    (l ++ x :: l2).getD n none = x := by
  rw [List.getD_eq_getElem?_getD, List.getElem?_append_right (le_of_eq h), h]
  simp

/-- C6 counterexample: on a dataset whose single row has a missing group
key and value 5, aggregate drops the row (groupby dropna), so the output
is empty and its column total 0 differs from the input total 5 — the
aggregation does not conserve the column total on every dataset. -/
theorem aggregate_drops_missing_group_keys :
    aggregate_dataframe (DataFrame.mk [("g"), ("c")] [[none, some (.int 5)]]) [("g")] [("c")] =
      .ok (DataFrame.mk ([("g")] ++ [("c")]) []) ∧
    cellSum (colCells (DataFrame.mk [("g"), ("c")] [[none, some (.int 5)]]) ("c")) = 5 ∧
    cellSum (colCells (DataFrame.mk ([("g")] ++ [("c")]) []) ("c")) = 0 := by
  decide

/-- C6 amended: when the group column has no missing values (so groupby
drops no rows) and the value column is numeric, summing the output's
value column after aggregate(g, c, sum) equals summing the input's value
column — the aggregation conserves the column total. -/
theorem aggregate_sum_conserved (df : DataFrame) (g c : String)
    (hg : g ∈ df.cols) (hc : c ∈ df.cols) (hgc : g ≠ c)
    (hkeys : ∀ r ∈ df.rows, (getCellRow df r g).isSome = true)
    (hnum : ∀ r ∈ df.rows, numCell (getCellRow df r c) = true) :
    ∃ out, aggregate_dataframe df [g] [c] = .ok out ∧
      cellSum (colCells out c) = cellSum (colCells df c) := by
  have hfind : (([g] ++ [c]).find? (fun x => !(df.cols.contains x))) = none := by
    rw [List.find?_eq_none]
    intro x hx
    rcases List.mem_append.mp hx with h | h
    · rw [List.mem_singleton] at h
      subst h
      simp [hg]
    · rw [List.mem_singleton] at h
      subst h
      simp [hc]
  have hidx : (([g] ++ [c]) : List String).indexOf? c = some 1 := by
    simp [List.indexOf?_cons, hgc]
  refine ⟨DataFrame.mk ([g] ++ [c]) ((groupKeys df [g]).map
      (fun k => k ++ [c].map (fun c2 => some (.int (groupSum df [g] k c2))))), ?_, ?_⟩
  · unfold aggregate_dataframe
    rw [hfind]
  · have hvalid : validRows df [g] = df.rows := by
      unfold validRows
      rw [List.filter_eq_self]
      intro r hr
      simp [tupleOf, hkeys r hr]
    have hcolout : colCells (DataFrame.mk ([g] ++ [c]) ((groupKeys df [g]).map
        (fun k => k ++ [c].map (fun c2 => some (.int (groupSum df [g] k c2)))))) c
        = (groupKeys df [g]).map (fun k => some (.int (groupSum df [g] k c))) := by
      unfold colCells
      rw [show (DataFrame.mk ([g] ++ [c]) ((groupKeys df [g]).map
          (fun k => k ++ [c].map (fun c2 => some (.int (groupSum df [g] k c2)))))).rows
          = (groupKeys df [g]).map
            (fun k => k ++ [c].map (fun c2 => some (.int (groupSum df [g] k c2)))) from rfl]
      rw [List.map_map]
      refine List.map_congr_left ?_
      intro k hk
      show getCellRow _ (k ++ [c].map (fun c2 => some (.int (groupSum df [g] k c2)))) c = _
      rw [getCellRow_of_index _ _ c 1 hidx]
      exact getD_append_of_length (groupKeys_length df [g] k hk)
    rw [hcolout, cellSum_map_some_int (fun k => groupSum df [g] k c)]
    have hgs : ∀ k ∈ groupKeys df [g], groupSum df [g] k c
        = (((validRows df [g]).filter (fun r => tupleOf df [g] r = k)).map
            (fun r => cellWeight (getCellRow df r c))).sum := by
      intro k _
      unfold groupSum
      rw [cellSum_eq_sum_weights, List.map_map]
      rfl
    rw [List.map_congr_left hgs]
    rw [sum_fibers (fun r => cellWeight (getCellRow df r c)) (fun r => tupleOf df [g] r)
      (groupKeys df [g]) (validRows df [g]) (groupKeys_nodup df [g])
      (fun r hr => groupKeys_mem df [g] r hr)]
    rw [hvalid]
    rw [cellSum_eq_sum_weights]
    unfold colCells
    rw [List.map_map]
    rfl

theorem aggregate_sum_conserved_witness :
    (("team") ∈ dfTeams.cols) ∧ (("score") ∈ dfTeams.cols) ∧ (("team") ≠ ("score")) ∧
    (∀ r ∈ dfTeams.rows, (getCellRow dfTeams r ("team")).isSome = true) ∧
    (∀ r ∈ dfTeams.rows, numCell (getCellRow dfTeams r ("score")) = true) ∧
    (∃ out, aggregate_dataframe dfTeams [("team")] [("score")] = .ok out ∧
      cellSum (colCells out ("score")) = cellSum (colCells dfTeams ("score"))) :=
  ⟨by decide, by decide, by decide, by decide, by decide,
   aggregate_sum_conserved dfTeams ("team") ("score") (by decide) (by decide) (by decide)
     (by decide) (by decide)⟩

/-- C9: aggregate_dataframe returns its output rows keyed by the
distinct surviving group-key tuples in ascending order: the key tuples
carried by the output rows (their first len(gcols) cells) are exactly
groupKeys, which are pairwise ascending under the lexicographic key
order and pairwise distinct — so the output ordering is deterministic,
determined by key order rather than first-occurrence order.  Stated
under type-homogeneity of the key columns, where the embedded order
reflects the pandas sort. -/
theorem aggregate_sorted (df : DataFrame) (gcols acols : List String)
    (hcols : ∀ x ∈ gcols ++ acols, x ∈ df.cols)
    (hhomog : ∀ gc ∈ gcols, (∀ r ∈ df.rows, numCell (getCellRow df r gc) = true) ∨
      (∀ r ∈ df.rows, strCell (getCellRow df r gc) = true)) :
    ∃ out, aggregate_dataframe df gcols acols = .ok out ∧
      out.rows.map (fun row => row.take gcols.length) = groupKeys df gcols ∧
      (groupKeys df gcols).Pairwise keyLeRel ∧
      (groupKeys df gcols).Nodup := by
  have hfind : ((gcols ++ acols).find? (fun x => !(df.cols.contains x))) = none := by
    rw [List.find?_eq_none]
    intro x hx
    simp [hcols x hx]
  refine ⟨DataFrame.mk (gcols ++ acols) ((groupKeys df gcols).map
      (fun k => k ++ acols.map (fun c2 => some (.int (groupSum df gcols k c2))))),
    ?_, ?_, ?_, ?_⟩
  · unfold aggregate_dataframe
    rw [hfind]
  · show ((groupKeys df gcols).map
        (fun k => k ++ acols.map (fun c2 => some (.int (groupSum df gcols k c2))))).map
        (fun row => row.take gcols.length) = groupKeys df gcols
    rw [List.map_map]
    have hpt : ∀ k ∈ groupKeys df gcols,
        ((fun row => row.take gcols.length) ∘ (fun k => k ++ acols.map
          (fun c2 => some (.int (groupSum df gcols k c2))))) k = k := by
      intro k hk
      exact List.take_left' (groupKeys_length df gcols k hk)
    rw [List.map_congr_left hpt]
    simp
  · haveI hto : IsTotal (List Cell) keyLeRel := ⟨keyLe_total⟩
    haveI htr : IsTrans (List Cell) keyLeRel := ⟨fun a b c => keyLe_trans a b c⟩
    exact List.sorted_insertionSort keyLeRel _
  · exact groupKeys_nodup df gcols

theorem aggregate_sorted_witness :
    (∀ x ∈ [("team")] ++ [("score")], x ∈ dfTeams.cols) ∧
    (∀ gc ∈ [("team")],
      (∀ r ∈ dfTeams.rows, numCell (getCellRow dfTeams r gc) = true) ∨
      (∀ r ∈ dfTeams.rows, strCell (getCellRow dfTeams r gc) = true)) ∧
    (∃ out, aggregate_dataframe dfTeams [("team")] [("score")] = .ok out ∧
      out.rows.map (fun row => row.take ([("team")] : List String).length) =
        groupKeys dfTeams [("team")] ∧
      (groupKeys dfTeams [("team")]).Pairwise keyLeRel ∧
      (groupKeys dfTeams [("team")]).Nodup) :=
  ⟨by decide,
   by
     intro gc hgc
     rw [List.mem_singleton] at hgc
     subst hgc
     exact Or.inr (by decide),
   aggregate_sorted dfTeams [("team")] [("score")] (by decide)
     (by
       intro gc hgc
       rw [List.mem_singleton] at hgc
       subst hgc
       exact Or.inr (by decide))⟩
